import Mathlib

/-!
Verification of the geometry extraction/filtering pipeline of
`scripts/get_roads_city.py` (class `OSMCityPipeline`).

Shallow embedding: shapefile records are ordered lists of attribute strings,
geometries are a shape-type tag plus an ordered point list with rational
coordinates, and a store pairs records with geometries under one schema.
The three core operations — `_extract_city_boundaries`, `_extract_road_data`
and `_generate_bbbike_url` — are translated into executable Lean functions.
-/

namespace GetRoadsCity

/-- A 2D point (x, y) with rational coordinates, modelling the float pairs in
`shape.points`. -/
abbrev Point := ℚ × ℚ

/-- A shapefile geometry: shape-type tag plus ordered point sequence. -/
structure Geometry where
  shapeType : ℕ
  points : List Point
deriving DecidableEq, Repr

/-- An attribute record: ordered attribute values, one per schema field. -/
abbrev Record := List String

/-- A geometry store: the schema (field names, deletion flag already dropped)
and the zipped (record, shape) pairs, in source order, as produced by
`zip(records, sf.shapes())`. -/
structure Store where
  fields : List String
  pairs : List (Record × Geometry)
deriving DecidableEq, Repr

/-- `record[i]` — positional attribute access (out-of-range reads yield ""). -/
def recordGet (r : Record) (i : ℕ) : String := r.getD i ""

/-- `fields.index(name)`: index of the first occurrence of `name`, `none` when
absent (Python raises `ValueError`). -/
def firstIndexOf : List String → String → Option ℕ
  | [], _ => none
  | f :: fs, name => if f = name then some 0 else (firstIndexOf fs name).map (· + 1)

/-- `[point for shape in city_shapes for point in shape.points]`. -/
def allPoints : List Geometry → List Point
  | [] => []
  | s :: ss => s.points ++ allPoints ss

/-- Running minimum over a list, seeded by the first element
(`min(...)` over a non-empty sequence). -/
def listMin (a : ℚ) : List ℚ → ℚ
  | [] => a
  | x :: xs => listMin (min a x) xs

/-- Running maximum over a list, seeded by the first element
(`max(...)` over a non-empty sequence). -/
def listMax (a : ℚ) : List ℚ → ℚ
  | [] => a
  | x :: xs => listMax (max a x) xs

/-- A bounding box (min_x, min_y, max_x, max_y). -/
abbrev Bbox := ℚ × ℚ × ℚ × ℚ

/-- The bbox computation of `_extract_city_boundaries` on the non-empty
point list `p :: ps`: per-axis min/max. -/
def bboxOfList (p : Point) (ps : List Point) : Bbox :=
  (listMin p.1 (ps.map Prod.fst), listMin p.2 (ps.map Prod.snd),
   listMax p.1 (ps.map Prod.fst), listMax p.2 (ps.map Prod.snd))

/-- Failure modes of `_extract_city_boundaries` (each a distinct raised
exception in the source; names follow the spec's taxonomy). -/
inductive ExtractError where
  | fieldNotFound
  | regionNotFound
  | emptyGeometry
deriving DecidableEq, Repr

/-- `_extract_city_boundaries(city_name, city_field_name)`: resolve the field
exactly, select the geometries whose record matches `city_name` at that field,
and compute the bounding box over all their points. -/
def extractCityBoundaries (store : Store) (cityName : String)
    (cityFieldName : String) : Except ExtractError (List Geometry × Bbox) :=
  match firstIndexOf store.fields cityFieldName with
  | none => .error .fieldNotFound
  | some nameIndex =>
    let cityShapes :=
      (store.pairs.filter fun rg => decide (recordGet rg.1 nameIndex = cityName)).map Prod.snd
    if cityShapes.isEmpty then .error .regionNotFound
    else
      match allPoints cityShapes with
      | [] => .error .emptyGeometry
      | p :: ps => .ok (cityShapes, bboxOfList p ps)

/-- A cell of a road-table row: an original attribute value (string) or one of
the four derived coordinates (number), mirroring the heterogeneous Python list
`list(record) + [start_lat, start_long, end_lat, end_long]`. -/
inductive Value where
  | str (s : String)
  | num (q : ℚ)
deriving DecidableEq, Repr

/-- The road DataFrame: column names and rows. -/
structure RoadTable where
  columns : List String
  rows : List (List Value)
deriving DecidableEq, Repr

/-- The hard-coded road-type field candidates of `_extract_road_data`. -/
def roadTypeCandidates : List String := ["type", "highway", "road_type", "roadtype", "class"]

/-- Candidate-list field resolution of `_extract_road_data`: the first
candidate (in candidate order) present in the schema wins; if none is present,
fall back to the first schema field (index 0) with a warning flag (the
`FieldFallbackUsed` diagnostic); `none` only when the schema is empty (Python
`fields[0]` raises `IndexError`). Returns `(index, fallbackUsed)`. -/
def resolveFieldIndex (fields : List String) (cands : List String) :
    Option (ℕ × Bool) :=
  match cands.find? (fun c => fields.contains c) with
  | some c => (firstIndexOf fields c).map (fun i => (i, false))
  | none =>
    match fields with
    | [] => none
    | f :: fs => (firstIndexOf (f :: fs) f).map (fun i => (i, true))

/-- The row built for one road feature with point list `p :: ps`:
`list(record) + [start_lat, start_long, end_lat, end_long]` where
`start_lat, start_long = shape.points[0]` and
`end_lat, end_long = shape.points[-1]`. -/
def mkRoadRow (record : Record) (p : Point) (ps : List Point) : List Value :=
  let lastPt := ps.getLastD p
  record.map Value.str ++
    [Value.num p.1, Value.num p.2, Value.num lastPt.1, Value.num lastPt.2]

/-- Total form of the row builder on a (record, geometry) pair (only applied
to pairs whose point list is non-empty). -/
def rowOfPair (rg : Record × Geometry) : List Value :=
  match rg.2.points with
  | [] => []
  | p :: ps => mkRoadRow rg.1 p ps

/-- The four derived column names appended by `_extract_road_data`. -/
def derivedColumns : List String := ["start_lat", "start_long", "end_lat", "end_long"]

/-- The `allowed_types` membership test
`record[road_type_index] in road_types_of_interest`. -/
def typeMatch (allowed : List String) (i : ℕ) (rg : Record × Geometry) : Bool :=
  decide (recordGet rg.1 i ∈ allowed)

/-- Row eligibility: type-matched, shape type 3 (polyline), non-empty points —
the conjunction of the three nested tests guarding `road_data.append`. -/
def rowElig (allowed : List String) (i : ℕ) (rg : Record × Geometry) : Bool :=
  typeMatch allowed i rg && decide (rg.2.shapeType = 3) &&
    decide (rg.2.points ≠ [])

/-- The body of the row-building loop of `_extract_road_data` for one
(record, shape) pair: `continue` on a type mismatch, skip silently unless the
shape is a polyline (`shapeType == 3`) with at least one point, else append
the flattened row. -/
def roadRowFun (allowed : List String) (i : ℕ) (rg : Record × Geometry) :
    Option (List Value) :=
  if recordGet rg.1 i ∈ allowed then
    if rg.2.shapeType = 3 then
      match rg.2.points with
      | [] => none
      | p :: ps => some (mkRoadRow rg.1 p ps)
    else none
  else none

/-- `_extract_road_data(roads_shapefile_path, road_types_of_interest)`:
resolve the road-type field via the candidate list, select the geometries
whose resolved-field value is in `allowed` (the rendering list), and build the
table rows from the stricter subset with shape type 3 and non-empty points.
`none` models the `IndexError` of the empty-schema fallback. -/
def extractRoadData (store : Store) (allowed : List String) :
    Option (List Geometry × RoadTable) :=
  match resolveFieldIndex store.fields roadTypeCandidates with
  | none => none
  | some (roadTypeIndex, _warn) =>
    let selectedRoads :=
      (store.pairs.filter (typeMatch allowed roadTypeIndex)).map Prod.snd
    let roadData := store.pairs.filterMap (roadRowFun allowed roadTypeIndex)
    some (selectedRoads, ⟨store.fields ++ derivedColumns, roadData⟩)

/-- Decimal digits of a natural number, most significant first (fuelled). -/
def natDigitsAux : ℕ → ℕ → List Char → List Char
  | 0, _, acc => acc
  | fuel + 1, n, acc =>
    if n < 10 then Nat.digitChar n :: acc
    else natDigitsAux fuel (n / 10) (Nat.digitChar (n % 10) :: acc)

/-- Decimal digits of a natural number, most significant first. -/
def natDigits (n : ℕ) : List Char := natDigitsAux (n + 1) n []

/-- Smallest exponent `k ≤ 17` with `q * 10^k` integral (the reduced
denominator divides `10^k`), if any: the number of decimal digits Python's
shortest `str()` prints after the point. -/
def decExp (q : ℚ) : Option ℕ :=
  (List.range 18).find? (fun k => decide (10 ^ k % q.den = 0))

/-- Rendering of a coordinate as Python's `str()` renders the corresponding
decimal-valued float inside the f-string of `_generate_bbbike_url`: shortest
decimal expansion, with a trailing `.0` on integral values. Coordinates whose
denominator divides no power of ten (impossible for float data) fall back to a
fraction rendering. -/
def renderCoord (q : ℚ) : List Char :=
  match decExp q with
  | some k =>
    let s := natDigits (q.num.natAbs * (10 ^ k / q.den))
    let s := List.replicate (k + 1 - s.length) '0' ++ s
    let sign : List Char := if q.num < 0 then ['-'] else []
    if k = 0 then sign ++ s ++ ['.', '0']
    else sign ++ s.take (s.length - k) ++ '.' :: s.drop (s.length - k)
  | none => natDigits q.num.natAbs ++ '/' :: natDigits q.den

/-- The characters of the URL produced by `_generate_bbbike_url`:
`f"http://extract.bbbike.org/?sw_lng={min_x}&sw_lat={min_y}&ne_lng={max_x}&ne_lat={max_y}"`. -/
def urlChars (bbox : Bbox) : List Char :=
  "http://extract.bbbike.org/?sw_lng=".data ++ renderCoord bbox.1 ++
    "&sw_lat=".data ++ renderCoord bbox.2.1 ++
    "&ne_lng=".data ++ renderCoord bbox.2.2.1 ++
    "&ne_lat=".data ++ renderCoord bbox.2.2.2

/-- `_generate_bbbike_url(bbox)`. -/
def generateBBBikeUrl (bbox : Bbox) : String := String.mk (urlChars bbox)

/-- Split a character list at every occurrence of the separator `c`
(the separators are consumed; `n` separators yield `n + 1` chunks). -/
def splitOnChar (c : Char) : List Char → List (List Char)
  | [] => [[]]
  | x :: xs =>
    if x = c then [] :: splitOnChar c xs
    else
      match splitOnChar c xs with
      | [] => [[x]]
      | h :: t => (x :: h) :: t

/-- The numeric value of a decimal digit character. -/
def digitVal (c : Char) : Option ℕ :=
  if '0' ≤ c ∧ c ≤ '9' then some (c.toNat - '0'.toNat) else none

/-- Parse a non-empty digit string into a natural number. -/
def digitsToNatAux : ℕ → List Char → Option ℕ
  | acc, [] => some acc
  | acc, c :: cs =>
    match digitVal c with
    | none => none
    | some d => digitsToNatAux (acc * 10 + d) cs

/-- Parse a non-empty digit string into a natural number. -/
def digitsToNat : List Char → Option ℕ
  | [] => none
  | l => digitsToNatAux 0 l

/-- Parse a (possibly signed) decimal numeral back into a rational. -/
def parseDecimal (l : List Char) : Option ℚ :=
  let sl : Bool × List Char :=
    match l with
    | '-' :: t => (true, t)
    | _ => (false, l)
  let val : Option ℚ :=
    match splitOnChar '.' sl.2 with
    | [ip] => (digitsToNat ip).map (fun n => ((n : ℤ) : ℚ))
    | [ip, fp] =>
      match digitsToNat ip, digitsToNat fp with
      | some n, some f =>
        some (mkRat ((n : ℤ) * 10 ^ fp.length + (f : ℤ)) (10 ^ fp.length))
      | _, _ => none
    | _ => none
  val.map (fun v => if sl.1 then -v else v)

/-- Read one `name=value` query component: succeeds with the value when the
name matches the expected parameter name. -/
def parseParam (expected : List Char) (part : List Char) : Option (List Char) :=
  match splitOnChar '=' part with
  | [n, v] => if n = expected then some v else none
  | _ => none

/-- Read the four parameter values out of the four query components, in the
order sw_lng, sw_lat, ne_lng, ne_lat. -/
def parseParams4 (p1 p2 p3 p4 : List Char) :
    Option (List Char × List Char × List Char × List Char) :=
  match parseParam "sw_lng".data p1, parseParam "sw_lat".data p2,
      parseParam "ne_lng".data p3, parseParam "ne_lat".data p4 with
  | some v1, some v2, some v3, some v4 => some (v1, v2, v3, v4)
  | _, _, _, _ => none

/-- Split a query string on `&` into exactly four components and read the
four parameter values. -/
def parseQuery4 (query : List Char) :
    Option (List Char × List Char × List Char × List Char) :=
  match splitOnChar '&' query with
  | [p1, p2, p3, p4] => parseParams4 p1 p2 p3 p4
  | _ => none

/-- Parse the four extracted value strings as decimals, yielding the bbox. -/
def parseVals (vals : Option (List Char × List Char × List Char × List Char)) :
    Option Bbox :=
  match vals with
  | some (v1, v2, v3, v4) =>
    match parseDecimal v1, parseDecimal v2, parseDecimal v3, parseDecimal v4 with
    | some a, some b, some c, some d => some (a, b, c, d)
    | _, _, _, _ => none
  | none => none

/-- Parse the four query parameters `sw_lng`, `sw_lat`, `ne_lng`, `ne_lat`
back out of a produced URL, recovering the bounding box (the spec's
round-trip reading of the query string). -/
def parseBBikeUrl (url : String) : Option Bbox :=
  match splitOnChar '?' url.data with
  | [_, query] => parseVals (parseQuery4 query)
  | _ => none

/-- A coordinate value whose rendering is free of the URL delimiter
characters and parses back to the coordinate — true of every decimal-valued
coordinate the pipeline handles. -/
def coordOk (q : ℚ) : Prop :=
  '&' ∉ renderCoord q ∧ '=' ∉ renderCoord q ∧ '?' ∉ renderCoord q ∧
    parseDecimal (renderCoord q) = some q

instance (q : ℚ) : Decidable (coordOk q) := by
  unfold coordOk; infer_instance

/-- A point lies within a bounding box (min_x, min_y, max_x, max_y). -/
def inBbox (b : Bbox) (x : Point) : Prop :=
  b.1 ≤ x.1 ∧ x.1 ≤ b.2.2.1 ∧ b.2.1 ≤ x.2 ∧ x.2 ≤ b.2.2.2

instance (b : Bbox) (x : Point) : Decidable (inBbox b x) := by
  unfold inBbox; infer_instance

/-- A small concrete boundary store used to instantiate theorems. -/
def bStore : Store :=
  ⟨["NAME_2"],
   [(["CityA"], ⟨5, [(1, 2), (3, 1)]⟩),
    (["CityB"], ⟨5, [(0, 4)]⟩),
    (["CityA"], ⟨5, [(2, 5)]⟩)]⟩

/-- The shapes `extractCityBoundaries bStore "CityA" "NAME_2"` selects. -/
def bStoreShapes : List Geometry := [⟨5, [(1, 2), (3, 1)]⟩, ⟨5, [(2, 5)]⟩]

/-- The road store of the spec's classification scenario: schema
[NAME_2, highway], records ("CityA","primary"), ("CityA","footway"),
("CityB","primary"), each with a two-point polyline. -/
def c8Store : Store :=
  ⟨["NAME_2", "highway"],
   [(["CityA", "primary"], ⟨3, [(0, 0), (1, 1)]⟩),
    (["CityA", "footway"], ⟨3, [(2, 2), (3, 3)]⟩),
    (["CityB", "primary"], ⟨3, [(4, 4), (5, 5)]⟩)]⟩

section MinMaxLemmas

theorem listMin_le_seed (a : ℚ) (l : List ℚ) : listMin a l ≤ a := by
  induction l generalizing a with
  | nil => simp [listMin]
  | cons x xs ih =>
    calc listMin a (x :: xs) = listMin (min a x) xs := rfl
    _ ≤ min a x := ih _
    _ ≤ a := min_le_left _ _

theorem listMin_le_mem (a : ℚ) (l : List ℚ) (x : ℚ) (hx : x ∈ l) :
    listMin a l ≤ x := by
  induction l generalizing a with
  | nil => cases hx
  | cons y ys ih =>
    rcases List.mem_cons.mp hx with h | h
    · subst h
      calc listMin a (x :: ys) = listMin (min a x) ys := rfl
      _ ≤ min a x := listMin_le_seed _ _
      _ ≤ x := min_le_right _ _
    · exact ih _ h

theorem listMin_attained (a : ℚ) (l : List ℚ) :
    listMin a l = a ∨ listMin a l ∈ l := by
  induction l generalizing a with
  | nil => left; rfl
  | cons x xs ih =>
    rcases ih (min a x) with h | h
    · rcases min_cases a x with ⟨he, _⟩ | ⟨he, _⟩
      · left; simpa [listMin, he] using h
      · right
        show listMin (min a x) xs ∈ x :: xs
        rw [h, he]
        exact List.mem_cons_self _ _
    · right; exact List.mem_cons_of_mem _ h

theorem seed_le_listMax (a : ℚ) (l : List ℚ) : a ≤ listMax a l := by
  induction l generalizing a with
  | nil => simp [listMax]
  | cons x xs ih =>
    calc a ≤ max a x := le_max_left _ _
    _ ≤ listMax (max a x) xs := ih _
    _ = listMax a (x :: xs) := rfl

theorem mem_le_listMax (a : ℚ) (l : List ℚ) (x : ℚ) (hx : x ∈ l) :
    x ≤ listMax a l := by
  induction l generalizing a with
  | nil => cases hx
  | cons y ys ih =>
    rcases List.mem_cons.mp hx with h | h
    · subst h
      calc x ≤ max a x := le_max_right _ _
      _ ≤ listMax (max a x) ys := seed_le_listMax _ _
      _ = listMax a (x :: ys) := rfl
    · exact ih _ h

theorem listMax_attained (a : ℚ) (l : List ℚ) :
    listMax a l = a ∨ listMax a l ∈ l := by
  induction l generalizing a with
  | nil => left; rfl
  | cons x xs ih =>
    rcases ih (max a x) with h | h
    · rcases max_cases a x with ⟨he, _⟩ | ⟨he, _⟩
      · left; simpa [listMax, he] using h
      · right
        show listMax (max a x) xs ∈ x :: xs
        rw [h, he]
        exact List.mem_cons_self _ _
    · right; exact List.mem_cons_of_mem _ h

end MinMaxLemmas

theorem listMin_mem_cons (a : ℚ) (l : List ℚ) : listMin a l ∈ a :: l := by
  rcases listMin_attained a l with h | h
  · rw [h]; exact List.mem_cons_self _ _
  · exact List.mem_cons_of_mem _ h

theorem listMin_le_of_mem (a : ℚ) (l : List ℚ) (x : ℚ) (hx : x ∈ a :: l) :
    listMin a l ≤ x := by
  rcases List.mem_cons.mp hx with rfl | hx
  · exact listMin_le_seed _ _
  · exact listMin_le_mem _ _ _ hx

theorem listMax_mem_cons (a : ℚ) (l : List ℚ) : listMax a l ∈ a :: l := by
  rcases listMax_attained a l with h | h
  · rw [h]; exact List.mem_cons_self _ _
  · exact List.mem_cons_of_mem _ h

theorem le_listMax_of_mem (a : ℚ) (l : List ℚ) (x : ℚ) (hx : x ∈ a :: l) :
    x ≤ listMax a l := by
  rcases List.mem_cons.mp hx with rfl | hx
  · exact seed_le_listMax _ _
  · exact mem_le_listMax _ _ _ hx

theorem listMin_eq_of_mem_iff (a b : ℚ) (as bs : List ℚ)
    (h : ∀ x, x ∈ a :: as ↔ x ∈ b :: bs) : listMin a as = listMin b bs :=
  le_antisymm
    (listMin_le_of_mem a as _ ((h _).mpr (listMin_mem_cons b bs)))
    (listMin_le_of_mem b bs _ ((h _).mp (listMin_mem_cons a as)))

theorem listMax_eq_of_mem_iff (a b : ℚ) (as bs : List ℚ)
    (h : ∀ x, x ∈ a :: as ↔ x ∈ b :: bs) : listMax a as = listMax b bs :=
  le_antisymm
    (le_listMax_of_mem b bs _ ((h _).mp (listMax_mem_cons a as)))
    (le_listMax_of_mem a as _ ((h _).mpr (listMax_mem_cons b bs)))

theorem bboxOfList_bounds (p : Point) (ps : List Point) :
    ∀ x ∈ p :: ps, inBbox (bboxOfList p ps) x := by
  intro x hx
  rcases List.mem_cons.mp hx with rfl | hx
  · exact ⟨listMin_le_seed _ _, seed_le_listMax _ _,
      listMin_le_seed _ _, seed_le_listMax _ _⟩
  · have h1 : x.1 ∈ ps.map Prod.fst := List.mem_map.mpr ⟨x, hx, rfl⟩
    have h2 : x.2 ∈ ps.map Prod.snd := List.mem_map.mpr ⟨x, hx, rfl⟩
    exact ⟨listMin_le_mem _ _ _ h1, mem_le_listMax _ _ _ h1,
      listMin_le_mem _ _ _ h2, mem_le_listMax _ _ _ h2⟩

theorem bboxOfList_attained (p : Point) (ps : List Point) :
    (∃ x ∈ p :: ps, x.1 = (bboxOfList p ps).1) ∧
    (∃ x ∈ p :: ps, x.2 = (bboxOfList p ps).2.1) ∧
    (∃ x ∈ p :: ps, x.1 = (bboxOfList p ps).2.2.1) ∧
    (∃ x ∈ p :: ps, x.2 = (bboxOfList p ps).2.2.2) := by
  refine ⟨?_, ?_, ?_, ?_⟩
  · rcases List.mem_cons.mp (listMin_mem_cons p.1 (ps.map Prod.fst)) with h | h
    · exact ⟨p, List.mem_cons_self _ _, h.symm⟩
    · rcases List.mem_map.mp h with ⟨x, hx, he⟩
      exact ⟨x, List.mem_cons_of_mem _ hx, he⟩
  · rcases List.mem_cons.mp (listMin_mem_cons p.2 (ps.map Prod.snd)) with h | h
    · exact ⟨p, List.mem_cons_self _ _, h.symm⟩
    · rcases List.mem_map.mp h with ⟨x, hx, he⟩
      exact ⟨x, List.mem_cons_of_mem _ hx, he⟩
  · rcases List.mem_cons.mp (listMax_mem_cons p.1 (ps.map Prod.fst)) with h | h
    · exact ⟨p, List.mem_cons_self _ _, h.symm⟩
    · rcases List.mem_map.mp h with ⟨x, hx, he⟩
      exact ⟨x, List.mem_cons_of_mem _ hx, he⟩
  · rcases List.mem_cons.mp (listMax_mem_cons p.2 (ps.map Prod.snd)) with h | h
    · exact ⟨p, List.mem_cons_self _ _, h.symm⟩
    · rcases List.mem_map.mp h with ⟨x, hx, he⟩
      exact ⟨x, List.mem_cons_of_mem _ hx, he⟩

theorem mem_map_fst_iff_of_mem_iff (q p : Point) (qs ps : List Point)
    (h : ∀ x, x ∈ q :: qs ↔ x ∈ p :: ps) :
    ∀ c, c ∈ q.1 :: qs.map Prod.fst ↔ c ∈ p.1 :: ps.map Prod.fst := by
  intro c
  have e1 : q.1 :: qs.map Prod.fst = (q :: qs).map Prod.fst := rfl
  have e2 : p.1 :: ps.map Prod.fst = (p :: ps).map Prod.fst := rfl
  rw [e1, e2]
  simp only [List.mem_map]
  exact ⟨fun ⟨x, hx, he⟩ => ⟨x, (h x).mp hx, he⟩,
    fun ⟨x, hx, he⟩ => ⟨x, (h x).mpr hx, he⟩⟩

theorem mem_map_snd_iff_of_mem_iff (q p : Point) (qs ps : List Point)
    (h : ∀ x, x ∈ q :: qs ↔ x ∈ p :: ps) :
    ∀ c, c ∈ q.2 :: qs.map Prod.snd ↔ c ∈ p.2 :: ps.map Prod.snd := by
  intro c
  have e1 : q.2 :: qs.map Prod.snd = (q :: qs).map Prod.snd := rfl
  have e2 : p.2 :: ps.map Prod.snd = (p :: ps).map Prod.snd := rfl
  rw [e1, e2]
  simp only [List.mem_map]
  exact ⟨fun ⟨x, hx, he⟩ => ⟨x, (h x).mp hx, he⟩,
    fun ⟨x, hx, he⟩ => ⟨x, (h x).mpr hx, he⟩⟩

theorem bboxOfList_congr (q p : Point) (qs ps : List Point)
    (h : ∀ x, x ∈ q :: qs ↔ x ∈ p :: ps) :
    bboxOfList q qs = bboxOfList p ps := by
  unfold bboxOfList
  rw [listMin_eq_of_mem_iff q.1 p.1 (qs.map Prod.fst) (ps.map Prod.fst)
      (mem_map_fst_iff_of_mem_iff q p qs ps h),
    listMin_eq_of_mem_iff q.2 p.2 (qs.map Prod.snd) (ps.map Prod.snd)
      (mem_map_snd_iff_of_mem_iff q p qs ps h),
    listMax_eq_of_mem_iff q.1 p.1 (qs.map Prod.fst) (ps.map Prod.fst)
      (mem_map_fst_iff_of_mem_iff q p qs ps h),
    listMax_eq_of_mem_iff q.2 p.2 (qs.map Prod.snd) (ps.map Prod.snd)
      (mem_map_snd_iff_of_mem_iff q p qs ps h)]

/-- Inversion of a successful `extractCityBoundaries` run: the returned shapes
are the matching selection, their flattened point list is non-empty, and the
returned bbox is the min/max computation over it. -/
theorem extractCityBoundaries_ok_inv (store : Store)
    (cityName cityFieldName : String) (shapes : List Geometry) (bx : Bbox)
    (h : extractCityBoundaries store cityName cityFieldName = .ok (shapes, bx)) :
    ∃ p ps, allPoints shapes = p :: ps ∧ bx = bboxOfList p ps := by
  unfold extractCityBoundaries at h
  split at h
  · exact Except.noConfusion h
  · dsimp only at h
    split at h
    · exact Except.noConfusion h
    · split at h
      · exact Except.noConfusion h
      · rename_i nameIndex hidx hne p ps hpts
        obtain ⟨h1, h2⟩ := Prod.mk.injEq _ _ _ _ ▸ Except.ok.injEq _ _ ▸ h
        exact ⟨p, ps, h1 ▸ hpts, h2.symm⟩

/-- C1: whenever `extractCityBoundaries` returns a bounding box for a
selection, every point of every selected geometry lies within it, each of the
four extrema is achieved by some selected point, and the box depends only on
which coordinates occur (any point list with the same members yields the same
box, so duplicates cannot affect the result). -/
theorem extractCityBoundaries_bbox_tight (store : Store)
    (cityName cityFieldName : String) (shapes : List Geometry) (bx : Bbox)
    (h : extractCityBoundaries store cityName cityFieldName = .ok (shapes, bx)) :
    (∀ x ∈ allPoints shapes, inBbox bx x) ∧
    ((∃ x ∈ allPoints shapes, x.1 = bx.1) ∧
     (∃ x ∈ allPoints shapes, x.2 = bx.2.1) ∧
     (∃ x ∈ allPoints shapes, x.1 = bx.2.2.1) ∧
     (∃ x ∈ allPoints shapes, x.2 = bx.2.2.2)) ∧
    (∀ q qs, (∀ x, x ∈ q :: qs ↔ x ∈ allPoints shapes) → bboxOfList q qs = bx) := by
  obtain ⟨p, ps, hap, rfl⟩ :=
    extractCityBoundaries_ok_inv store cityName cityFieldName shapes bx h
  rw [hap]
  exact ⟨bboxOfList_bounds p ps, bboxOfList_attained p ps,
    fun q qs hm => bboxOfList_congr q p qs ps hm⟩

/-- Witness for C1: on the concrete store `bStore`, the extraction yields the
box (1, 1, 3, 5) and the selected point (3, 1) lies within it. -/
theorem extractCityBoundaries_bbox_tight_witness : inBbox (1, 1, 3, 5) (3, 1) :=
  (extractCityBoundaries_bbox_tight bStore "CityA" "NAME_2" bStoreShapes
    (1, 1, 3, 5) (by rfl)).1 (3, 1) (by decide)

theorem count_map_snd_filter {α β : Type} [DecidableEq β]
    (P : α × β → Bool) (l : List (α × β)) (g : β) :
    ((l.filter P).map Prod.snd).count g
      = l.countP (fun rg => P rg && decide (rg.2 = g)) := by
  induction l with
  | nil => rfl
  | cons rg t ih =>
    by_cases hP : P rg = true
    · by_cases hg : rg.2 = g
      · simp [List.filter_cons, hP, List.count_cons, hg, List.countP_cons, ih]
      · simp [List.filter_cons, hP, List.count_cons, hg, List.countP_cons, ih]
    · simp [List.filter_cons, hP, List.countP_cons, ih]

/-- Inversion of a successful `extractCityBoundaries` run, selection form: the
returned shapes are exactly the filtered-and-projected pairs. -/
theorem extractCityBoundaries_ok_shapes (store : Store)
    (cityName cityFieldName : String) (shapes : List Geometry) (bx : Bbox)
    (i : ℕ) (hidx : firstIndexOf store.fields cityFieldName = some i)
    (h : extractCityBoundaries store cityName cityFieldName = .ok (shapes, bx)) :
    shapes = (store.pairs.filter fun rg =>
      decide (recordGet rg.1 i = cityName)).map Prod.snd := by
  unfold extractCityBoundaries at h
  rw [hidx] at h
  dsimp only at h
  split at h
  · exact Except.noConfusion h
  · split at h
    · exact Except.noConfusion h
    · obtain ⟨h1, _⟩ := Prod.mk.injEq _ _ _ _ ▸ Except.ok.injEq _ _ ▸ h
      exact h1.symm

/-- C7: the geometries returned by boundary extraction are exactly those whose
record matches the target value at the resolved field, under exact string
equality: each geometry occurs as often as it has matching records (duplicates
kept), and the selection is an order-preserving sublist of the store's
geometry sequence. -/
theorem extractCityBoundaries_selects_exact (store : Store)
    (cityName cityFieldName : String) (shapes : List Geometry) (bx : Bbox)
    (i : ℕ) (hidx : firstIndexOf store.fields cityFieldName = some i)
    (h : extractCityBoundaries store cityName cityFieldName = .ok (shapes, bx)) :
    (∀ g : Geometry, shapes.count g = store.pairs.countP
      (fun rg => decide (recordGet rg.1 i = cityName) && decide (rg.2 = g))) ∧
    shapes.Sublist (store.pairs.map Prod.snd) := by
  obtain rfl := extractCityBoundaries_ok_shapes store cityName cityFieldName
    shapes bx i hidx h
  exact ⟨fun g => count_map_snd_filter _ _ g,
    List.Sublist.map Prod.snd (List.filter_sublist _)⟩

/-- Witness for C7: on `bStore`, the geometry of the second "CityA" record is
selected exactly once. -/
theorem extractCityBoundaries_selects_exact_witness :
    bStoreShapes.count ⟨5, [(2, 5)]⟩ = bStore.pairs.countP
      (fun rg => decide (recordGet rg.1 0 = "CityA") &&
        decide (rg.2 = ⟨5, [(2, 5)]⟩)) :=
  (extractCityBoundaries_selects_exact bStore "CityA" "NAME_2" bStoreShapes
    (1, 1, 3, 5) 0 (by rfl) (by rfl)).1 ⟨5, [(2, 5)]⟩

/-- C5: with the field present in the schema but no record matching the target
value, extraction fails with `RegionNotFound`; with the field absent it fails
earlier with `FieldNotFound`; the two failures are distinct. -/
theorem extractCityBoundaries_regionNotFound (store : Store)
    (cityName cityFieldName : String) :
    (∀ i, firstIndexOf store.fields cityFieldName = some i →
      (∀ rg ∈ store.pairs, recordGet rg.1 i ≠ cityName) →
      extractCityBoundaries store cityName cityFieldName
        = .error .regionNotFound) ∧
    (firstIndexOf store.fields cityFieldName = none →
      extractCityBoundaries store cityName cityFieldName
        = .error .fieldNotFound) ∧
    (ExtractError.regionNotFound ≠ ExtractError.fieldNotFound) := by
  refine ⟨?_, ?_, by decide⟩
  · intro i hidx hnone
    unfold extractCityBoundaries
    rw [hidx]
    dsimp only
    have hfil : store.pairs.filter
        (fun rg => decide (recordGet rg.1 i = cityName)) = [] := by
      rw [List.filter_eq_nil_iff]
      intro rg hrg
      simp only [decide_eq_true_eq]
      exact hnone rg hrg
    rw [hfil]
    rfl
  · intro hidx
    unfold extractCityBoundaries
    rw [hidx]

/-- Witness for C5: a missing city yields `RegionNotFound`, a missing field
yields `FieldNotFound`, on the concrete store `bStore`. -/
theorem extractCityBoundaries_regionNotFound_witness :
    extractCityBoundaries bStore "CityZ" "NAME_2" = .error .regionNotFound ∧
    extractCityBoundaries bStore "CityA" "NAME" = .error .fieldNotFound :=
  ⟨(extractCityBoundaries_regionNotFound bStore "CityZ" "NAME_2").1 0
      (by rfl) (by decide),
   (extractCityBoundaries_regionNotFound bStore "CityA" "NAME").2.1 (by rfl)⟩

theorem allPoints_eq_nil (shapes : List Geometry)
    (h : ∀ g ∈ shapes, g.points = []) : allPoints shapes = [] := by
  induction shapes with
  | nil => rfl
  | cons s ss ih =>
    have hs : s.points = [] := h s (List.mem_cons_self _ _)
    have hss : allPoints ss = [] := ih fun g hg => h g (List.mem_cons_of_mem _ hg)
    simp [allPoints, hs, hss]

/-- C9: with a non-empty selection all of whose geometries have empty point
lists, extraction fails with `EmptyGeometry` and returns no bounding box. -/
theorem extractCityBoundaries_emptyGeometry (store : Store)
    (cityName cityFieldName : String) (i : ℕ)
    (hidx : firstIndexOf store.fields cityFieldName = some i)
    (hne : ∃ rg ∈ store.pairs, recordGet rg.1 i = cityName)
    (hempty : ∀ rg ∈ store.pairs, recordGet rg.1 i = cityName →
      rg.2.points = []) :
    extractCityBoundaries store cityName cityFieldName
      = .error .emptyGeometry := by
  unfold extractCityBoundaries
  rw [hidx]
  dsimp only
  obtain ⟨rg, hrg, hmatch⟩ := hne
  have hmem : rg.2 ∈ (store.pairs.filter
      (fun rg => decide (recordGet rg.1 i = cityName))).map Prod.snd :=
    List.mem_map.mpr ⟨rg, List.mem_filter.mpr ⟨hrg, by
      simp only [decide_eq_true_eq]; exact hmatch⟩, rfl⟩
  have hcond : ¬(((store.pairs.filter
      (fun rg => decide (recordGet rg.1 i = cityName))).map
        Prod.snd).isEmpty = true) := by
    rw [List.isEmpty_iff]
    intro hcontra
    rw [hcontra] at hmem
    cases hmem
  rw [if_neg hcond]
  have hap : allPoints ((store.pairs.filter
      (fun rg => decide (recordGet rg.1 i = cityName))).map Prod.snd) = [] := by
    refine allPoints_eq_nil _ fun g hg => ?_
    obtain ⟨rg', hrg', he⟩ := List.mem_map.mp hg
    obtain ⟨hmem', hP⟩ := List.mem_filter.mp hrg'
    simp only [decide_eq_true_eq] at hP
    exact he ▸ hempty rg' hmem' hP
  rw [hap]

/-- A concrete store whose single matching geometry has no points. -/
def b9Store : Store := ⟨["NAME_2"], [(["CityA"], ⟨5, []⟩)]⟩

/-- Witness for C9: extraction on `b9Store` fails with `EmptyGeometry`. -/
theorem extractCityBoundaries_emptyGeometry_witness :
    extractCityBoundaries b9Store "CityA" "NAME_2" = .error .emptyGeometry :=
  extractCityBoundaries_emptyGeometry b9Store "CityA" "NAME_2" 0 (by rfl)
    ⟨(["CityA"], ⟨5, []⟩), by decide, by decide⟩ (by decide)

theorem length_filterMap_eq_countP {α β : Type} (f : α → Option β)
    (l : List α) :
    (l.filterMap f).length = l.countP (fun a => (f a).isSome) := by
  induction l with
  | nil => rfl
  | cons a t ih =>
    rw [List.filterMap_cons, List.countP_cons]
    cases hfa : f a with
    | none => simp [hfa, ih]
    | some b => simp [hfa, ih]

theorem countP_eq_countP_iff {α : Type} (l : List α) (p q : α → Bool)
    (himp : ∀ a ∈ l, q a = true → p a = true) :
    l.countP q = l.countP p ↔ ∀ a ∈ l, p a = true → q a = true := by
  induction l with
  | nil => simp
  | cons a t ih =>
    have himpt : ∀ x ∈ t, q x = true → p x = true :=
      fun x hx => himp x (List.mem_cons_of_mem _ hx)
    have iht := ih himpt
    rw [List.countP_cons, List.countP_cons]
    by_cases hq : q a = true
    · have hp : p a = true := himp a (List.mem_cons_self _ _) hq
      rw [if_pos hq, if_pos hp]
      constructor
      · intro he x hx
        rcases List.mem_cons.mp hx with rfl | hx
        · exact fun _ => hq
        · exact (iht.mp (Nat.add_right_cancel he)) x hx
      · intro hall
        have := iht.mpr fun x hx => hall x (List.mem_cons_of_mem _ hx)
        omega
    · by_cases hp : p a = true
      · rw [if_neg hq, if_pos hp]
        constructor
        · intro he
          have hle : t.countP q ≤ t.countP p := List.countP_mono_left himpt
          exact absurd he (by omega)
        · intro hall
          exact absurd (hall a (List.mem_cons_self _ _) hp) hq
      · rw [if_neg hq, if_neg hp]
        constructor
        · intro he x hx
          rcases List.mem_cons.mp hx with rfl | hx
          · intro hpa; exact absurd hpa hp
          · exact (iht.mp he) x hx
        · intro hall
          exact iht.mpr fun x hx => hall x (List.mem_cons_of_mem _ hx)

theorem filterMap_eq_map_filter {α β : Type} (f : α → Option β)
    (p : α → Bool) (g : α → β) (l : List α)
    (h : ∀ a ∈ l, f a = if p a then some (g a) else none) :
    l.filterMap f = (l.filter p).map g := by
  induction l with
  | nil => rfl
  | cons a t ih =>
    have ha := h a (List.mem_cons_self _ _)
    have iht := ih fun x hx => h x (List.mem_cons_of_mem _ hx)
    by_cases hp : p a = true
    · rw [List.filterMap_cons, List.filter_cons, if_pos hp]
      rw [hp] at ha
      simp only [if_true] at ha
      rw [ha, List.map_cons, iht]
    · rw [List.filterMap_cons, List.filter_cons, if_neg hp]
      rw [Bool.not_eq_true] at hp
      rw [hp] at ha
      simp only [Bool.false_eq_true, if_false] at ha
      rw [ha, iht]

theorem roadRowFun_isSome (allowed : List String) (i : ℕ)
    (rg : Record × Geometry) :
    (roadRowFun allowed i rg).isSome = rowElig allowed i rg := by
  unfold roadRowFun rowElig typeMatch
  by_cases hm : recordGet rg.1 i ∈ allowed
  · by_cases ht : rg.2.shapeType = 3
    · cases hp : rg.2.points with
      | nil => simp [hm, ht, hp]
      | cons p ps => simp [hm, ht, hp]
    · simp [hm, ht]
  · simp [hm]

theorem roadRowFun_eq_of_elig (allowed : List String) (i : ℕ)
    (rg : Record × Geometry) (helig : rowElig allowed i rg = true) :
    roadRowFun allowed i rg = some (rowOfPair rg) := by
  unfold rowElig typeMatch at helig
  simp only [Bool.and_eq_true, decide_eq_true_eq] at helig
  obtain ⟨⟨hm, ht⟩, hp⟩ := helig
  cases hpts : rg.2.points with
  | nil => exact absurd hpts hp
  | cons p ps =>
    unfold roadRowFun rowOfPair
    rw [if_pos hm, if_pos ht, hpts]

theorem roadRowFun_eq_none_of_not_elig (allowed : List String) (i : ℕ)
    (rg : Record × Geometry) (helig : rowElig allowed i rg = false) :
    roadRowFun allowed i rg = none := by
  have h := roadRowFun_isSome allowed i rg
  rw [helig] at h
  exact Option.not_isSome_iff_eq_none.mp (by rw [h]; exact Bool.false_ne_true)

/-- Inversion of a successful `extractRoadData` run. -/
theorem extractRoadData_some_inv (store : Store) (allowed : List String)
    (sel : List Geometry) (tbl : RoadTable) (i : ℕ) (w : Bool)
    (hres : resolveFieldIndex store.fields roadTypeCandidates = some (i, w))
    (h : extractRoadData store allowed = some (sel, tbl)) :
    sel = (store.pairs.filter (typeMatch allowed i)).map Prod.snd ∧
    tbl.columns = store.fields ++ derivedColumns ∧
    tbl.rows = store.pairs.filterMap (roadRowFun allowed i) := by
  unfold extractRoadData at h
  rw [hres] at h
  dsimp only at h
  obtain ⟨h1, h2⟩ := Prod.mk.injEq _ _ _ _ ▸ Option.some.injEq _ _ ▸ h
  refine ⟨h1.symm, ?_, ?_⟩
  · rw [← h2]
  · rw [← h2]

/-- C2: the rendering list returned by `extractRoadData` contains exactly the
type-matched geometries (multiplicity-exact), the table has one row per
type-matched pair that is moreover a polyline (shape type 3) with non-empty
points, the row count never exceeds the rendering-list length, and the two
are equal exactly when every type-matched geometry is a non-empty polyline. -/
theorem extractRoadData_render_vs_table (store : Store) (allowed : List String)
    (sel : List Geometry) (tbl : RoadTable) (i : ℕ) (w : Bool)
    (hres : resolveFieldIndex store.fields roadTypeCandidates = some (i, w))
    (h : extractRoadData store allowed = some (sel, tbl)) :
    sel.length = store.pairs.countP (typeMatch allowed i) ∧
    (∀ g : Geometry, sel.count g = store.pairs.countP
      (fun rg => typeMatch allowed i rg && decide (rg.2 = g))) ∧
    tbl.rows.length = store.pairs.countP (rowElig allowed i) ∧
    tbl.rows.length ≤ sel.length ∧
    (tbl.rows.length = sel.length ↔
      ∀ rg ∈ store.pairs, typeMatch allowed i rg = true →
        rg.2.shapeType = 3 ∧ rg.2.points ≠ []) := by
  obtain ⟨hsel, _, hrows⟩ :=
    extractRoadData_some_inv store allowed sel tbl i w hres h
  have helig_imp : ∀ rg ∈ store.pairs, rowElig allowed i rg = true →
      typeMatch allowed i rg = true := by
    intro rg _ he
    unfold rowElig at he
    simp only [Bool.and_eq_true] at he
    exact he.1.1
  have hlen_sel : sel.length = store.pairs.countP (typeMatch allowed i) := by
    rw [hsel, List.length_map, ← List.countP_eq_length_filter]
  have hlen_rows : tbl.rows.length = store.pairs.countP (rowElig allowed i) := by
    rw [hrows, length_filterMap_eq_countP]
    exact List.countP_congr fun rg _ => by rw [roadRowFun_isSome]
  refine ⟨hlen_sel, ?_, hlen_rows, ?_, ?_⟩
  · intro g
    rw [hsel]
    exact count_map_snd_filter _ _ g
  · rw [hlen_sel, hlen_rows]
    exact List.countP_mono_left helig_imp
  · rw [hlen_sel, hlen_rows]
    rw [countP_eq_countP_iff store.pairs (typeMatch allowed i)
      (rowElig allowed i) helig_imp]
    constructor
    · intro hall rg hrg hm
      have he := hall rg hrg hm
      unfold rowElig at he
      simp only [Bool.and_eq_true, decide_eq_true_eq] at he
      exact ⟨he.1.2, he.2⟩
    · intro hall rg hrg hm
      obtain ⟨ht, hp⟩ := hall rg hrg hm
      unfold rowElig
      simp only [Bool.and_eq_true, decide_eq_true_eq]
      exact ⟨⟨hm, ht⟩, hp⟩

/-- Witness for C2: on the scenario store, two geometries are rendered and
both yield table rows (2 = 2 ≤ 2). -/
theorem extractRoadData_render_vs_table_witness :
    [Geometry.mk 3 [(0, 0), (1, 1)], Geometry.mk 3 [(4, 4), (5, 5)]].length
      = c8Store.pairs.countP (typeMatch ["primary"] 1) :=
  (extractRoadData_render_vs_table c8Store ["primary"]
    [⟨3, [(0, 0), (1, 1)]⟩, ⟨3, [(4, 4), (5, 5)]⟩]
    ⟨["NAME_2", "highway"] ++ derivedColumns,
     [[Value.str "CityA", Value.str "primary", Value.num 0, Value.num 0,
       Value.num 1, Value.num 1],
      [Value.str "CityB", Value.str "primary", Value.num 4, Value.num 4,
       Value.num 5, Value.num 5]]⟩
    1 false (by rfl) (by rfl)).1

theorem getLastD_eq_getLast_cons {α : Type} (p : α) (ps : List α) :
    ps.getLastD p = (p :: ps).getLast (List.cons_ne_nil p ps) := by
  induction ps generalizing p with
  | nil => rfl
  | cons q qs ih =>
    rw [List.getLastD_cons, ih q]
    exact (List.getLast_cons (List.cons_ne_nil q qs)).symm

/-- C3: the table schema is the original schema extended by
start_lat, start_long, end_lat, end_long in that order, and each row-eligible
pair contributes the row = original record fields followed by the first
point's two coordinates and the last point's two coordinates (last = first
for a one-point geometry); conversely every row arises this way. -/
theorem extractRoadData_row_structure (store : Store) (allowed : List String)
    (sel : List Geometry) (tbl : RoadTable) (i : ℕ) (w : Bool)
    (hres : resolveFieldIndex store.fields roadTypeCandidates = some (i, w))
    (h : extractRoadData store allowed = some (sel, tbl)) :
    tbl.columns = store.fields ++
      ["start_lat", "start_long", "end_lat", "end_long"] ∧
    (∀ rg ∈ store.pairs, ∀ p ps, recordGet rg.1 i ∈ allowed →
      rg.2.shapeType = 3 → rg.2.points = p :: ps →
      rg.1.map Value.str ++ [Value.num p.1, Value.num p.2,
        Value.num ((p :: ps).getLast (List.cons_ne_nil p ps)).1,
        Value.num ((p :: ps).getLast (List.cons_ne_nil p ps)).2]
        ∈ tbl.rows) ∧
    (∀ rg ∈ store.pairs, ∀ p, recordGet rg.1 i ∈ allowed →
      rg.2.shapeType = 3 → rg.2.points = [p] →
      rg.1.map Value.str ++ [Value.num p.1, Value.num p.2, Value.num p.1,
        Value.num p.2] ∈ tbl.rows) ∧
    (∀ row ∈ tbl.rows, ∃ rg ∈ store.pairs, ∃ p ps,
      recordGet rg.1 i ∈ allowed ∧ rg.2.shapeType = 3 ∧
      rg.2.points = p :: ps ∧
      row = rg.1.map Value.str ++ [Value.num p.1, Value.num p.2,
        Value.num (ps.getLastD p).1, Value.num (ps.getLastD p).2]) := by
  obtain ⟨_, hcols, hrows⟩ :=
    extractRoadData_some_inv store allowed sel tbl i w hres h
  have hfwd : ∀ rg ∈ store.pairs, ∀ p ps, recordGet rg.1 i ∈ allowed →
      rg.2.shapeType = 3 → rg.2.points = p :: ps →
      mkRoadRow rg.1 p ps ∈ tbl.rows := by
    intro rg hrg p ps hm ht hpts
    rw [hrows]
    refine List.mem_filterMap.mpr ⟨rg, hrg, ?_⟩
    unfold roadRowFun
    rw [if_pos hm, if_pos ht, hpts]
  refine ⟨hcols, ?_, ?_, ?_⟩
  · intro rg hrg p ps hm ht hpts
    have := hfwd rg hrg p ps hm ht hpts
    unfold mkRoadRow at this
    rwa [getLastD_eq_getLast_cons] at this
  · intro rg hrg p hm ht hpts
    have := hfwd rg hrg p [] hm ht hpts
    unfold mkRoadRow at this
    exact this
  · intro row hrow
    rw [hrows] at hrow
    obtain ⟨rg, hrg, hfa⟩ := List.mem_filterMap.mp hrow
    unfold roadRowFun at hfa
    by_cases hm : recordGet rg.1 i ∈ allowed
    · rw [if_pos hm] at hfa
      by_cases ht : rg.2.shapeType = 3
      · rw [if_pos ht] at hfa
        cases hpts : rg.2.points with
        | nil => rw [hpts] at hfa; exact Option.noConfusion hfa
        | cons p ps =>
          rw [hpts] at hfa
          refine ⟨rg, hrg, p, ps, hm, ht, hpts, ?_⟩
          have := Option.some.injEq _ _ ▸ hfa
          rw [← this]
          rfl
      · rw [if_neg ht] at hfa; exact Option.noConfusion hfa
    · rw [if_neg hm] at hfa; exact Option.noConfusion hfa

/-- Witness for C3: the scenario table's schema is the original schema plus
the four derived column names. -/
theorem extractRoadData_row_structure_witness :
    (RoadTable.mk (["NAME_2", "highway"] ++ derivedColumns)
      [[Value.str "CityA", Value.str "primary", Value.num 0, Value.num 0,
        Value.num 1, Value.num 1],
       [Value.str "CityB", Value.str "primary", Value.num 4, Value.num 4,
        Value.num 5, Value.num 5]]).columns
      = c8Store.fields ++ ["start_lat", "start_long", "end_lat", "end_long"] :=
  (extractRoadData_row_structure c8Store ["primary"]
    [⟨3, [(0, 0), (1, 1)]⟩, ⟨3, [(4, 4), (5, 5)]⟩]
    ⟨["NAME_2", "highway"] ++ derivedColumns,
     [[Value.str "CityA", Value.str "primary", Value.num 0, Value.num 0,
       Value.num 1, Value.num 1],
      [Value.str "CityB", Value.str "primary", Value.num 4, Value.num 4,
       Value.num 5, Value.num 5]]⟩
    1 false (by rfl) (by rfl)).1

/-- C10: the rendering list and the table rows both arise from
order-preserving sublists of the store's pairs (source order kept), and every
row starts with its source record's attribute values, unchanged and in
order. -/
theorem extractRoadData_order_and_fields (store : Store)
    (allowed : List String) (sel : List Geometry) (tbl : RoadTable)
    (i : ℕ) (w : Bool)
    (hres : resolveFieldIndex store.fields roadTypeCandidates = some (i, w))
    (h : extractRoadData store allowed = some (sel, tbl)) :
    (∃ l : List (Record × Geometry), l.Sublist store.pairs ∧ sel = l.map Prod.snd) ∧
    (∃ l : List (Record × Geometry), l.Sublist store.pairs ∧ tbl.rows = l.map rowOfPair ∧
      ∀ rg ∈ l, (rowOfPair rg).take rg.1.length = rg.1.map Value.str) := by
  obtain ⟨hsel, _, hrows⟩ :=
    extractRoadData_some_inv store allowed sel tbl i w hres h
  refine ⟨⟨store.pairs.filter (typeMatch allowed i),
      List.filter_sublist _, hsel⟩,
    ⟨store.pairs.filter (rowElig allowed i), List.filter_sublist _, ?_, ?_⟩⟩
  · rw [hrows]
    refine filterMap_eq_map_filter _ _ _ _ fun rg _ => ?_
    by_cases he : rowElig allowed i rg = true
    · rw [if_pos he]
      exact roadRowFun_eq_of_elig allowed i rg he
    · rw [if_neg he]
      exact roadRowFun_eq_none_of_not_elig allowed i rg
        (Bool.not_eq_true _ ▸ he)
  · intro rg hrg
    have helig := (List.mem_filter.mp hrg).2
    unfold rowElig at helig
    simp only [Bool.and_eq_true, decide_eq_true_eq] at helig
    cases hpts : rg.2.points with
    | nil => exact absurd hpts helig.2
    | cons p ps =>
      unfold rowOfPair
      rw [hpts]
      unfold mkRoadRow
      conv_lhs => rw [← List.length_map rg.1 Value.str]
      exact List.take_left _ _

/-- Witness for C10: the scenario rendering list is the geometry projection
of an order-preserving sublist of the store's pairs. -/
theorem extractRoadData_order_and_fields_witness :
    ∃ l : List (Record × Geometry), l.Sublist c8Store.pairs ∧
      [Geometry.mk 3 [(0, 0), (1, 1)], Geometry.mk 3 [(4, 4), (5, 5)]]
        = l.map Prod.snd :=
  (extractRoadData_order_and_fields c8Store ["primary"]
    [⟨3, [(0, 0), (1, 1)]⟩, ⟨3, [(4, 4), (5, 5)]⟩]
    ⟨["NAME_2", "highway"] ++ derivedColumns,
     [[Value.str "CityA", Value.str "primary", Value.num 0, Value.num 0,
       Value.num 1, Value.num 1],
      [Value.str "CityB", Value.str "primary", Value.num 4, Value.num 4,
       Value.num 5, Value.num 5]]⟩
    1 false (by rfl) (by rfl)).1

theorem contains_eq_true_iff (l : List String) (s : String) :
    l.contains s = true ↔ s ∈ l := by
  simp [List.contains, List.elem_iff]

theorem find?_eq_of_prefix_none {α : Type} (p : α → Bool) (l1 : List α)
    (c : α) (l2 : List α) (h1 : ∀ x ∈ l1, p x = false) (hc : p c = true) :
    List.find? p (l1 ++ c :: l2) = some c := by
  induction l1 with
  | nil => simp [List.find?_cons, hc]
  | cons a t ih =>
    rw [List.cons_append, List.find?_cons, h1 a (List.mem_cons_self _ _)]
    exact ih fun x hx => h1 x (List.mem_cons_of_mem _ hx)

theorem firstIndexOf_first_occurrence (fields : List String) (c : String)
    (hc : c ∈ fields) :
    ∃ i, firstIndexOf fields c = some i ∧ fields.getD i "" = c ∧
      ∀ j < i, fields.getD j "" ≠ c := by
  induction fields with
  | nil => cases hc
  | cons f fs ih =>
    by_cases hf : f = c
    · exact ⟨0, by simp [firstIndexOf, hf], by simp [hf],
        fun j hj => absurd hj (Nat.not_lt_zero j)⟩
    · have hcfs : c ∈ fs :=
        (List.mem_cons.mp hc).resolve_left fun he => hf he.symm
      obtain ⟨i, h1, h2, h3⟩ := ih hcfs
      refine ⟨i + 1, ?_, ?_, ?_⟩
      · simp [firstIndexOf, hf, h1]
      · simpa [List.getD_cons_succ] using h2
      · intro j hj
        cases j with
        | zero => simpa [List.getD_cons_zero] using hf
        | succ j' => rw [List.getD_cons_succ]; exact h3 j' (by omega)

/-- C4: candidate-list field resolution returns the index (in the schema) of
the first candidate, in candidate-list order, present in the schema —
regardless of later candidates — and the index is the first occurrence of
that candidate; when no candidate is present and the schema is non-empty it
returns index 0 with the fallback-warning flag set instead of failing. -/
theorem resolveFieldIndex_first_wins (fields cands : List String) :
    (∀ l1 c l2, cands = l1 ++ c :: l2 → (∀ x ∈ l1, x ∉ fields) →
      c ∈ fields →
      ∃ i, resolveFieldIndex fields cands = some (i, false) ∧
        fields.getD i "" = c ∧ ∀ j < i, fields.getD j "" ≠ c) ∧
    ((∀ c ∈ cands, c ∉ fields) → fields ≠ [] →
      resolveFieldIndex fields cands = some (0, true)) := by
  constructor
  · intro l1 c l2 hc hl1 hcf
    have hfind : cands.find? (fun c => fields.contains c) = some c := by
      rw [hc]
      refine find?_eq_of_prefix_none _ l1 c l2 ?_
        ((contains_eq_true_iff _ _).mpr hcf)
      intro x hx
      cases hcont : fields.contains x with
      | false => rfl
      | true =>
        exact absurd ((contains_eq_true_iff _ _).mp hcont) (hl1 x hx)
    obtain ⟨i, h1, h2, h3⟩ := firstIndexOf_first_occurrence fields c hcf
    refine ⟨i, ?_, h2, h3⟩
    unfold resolveFieldIndex
    rw [hfind]
    show (firstIndexOf fields c).map (fun i => (i, false)) = some (i, false)
    rw [h1]
    rfl
  · intro hnone hne
    have hfind : cands.find? (fun c => fields.contains c) = none := by
      rw [List.find?_eq_none]
      intro x hx hpx
      exact hnone x hx ((contains_eq_true_iff _ _).mp hpx)
    obtain ⟨f, fs, rfl⟩ : ∃ f fs, fields = f :: fs := by
      cases fields with
      | nil => exact absurd rfl hne
      | cons f fs => exact ⟨f, fs, rfl⟩
    unfold resolveFieldIndex
    rw [hfind]
    simp [firstIndexOf]

/-- Witness for C4: with schema [NAME_2, highway, type], the candidate "type"
wins (candidate-list order) even though the later candidate "highway" is also
present, yielding index 2; with a schema containing no candidate, index 0 is
returned with the fallback flag. -/
theorem resolveFieldIndex_first_wins_witness :
    (∃ i, resolveFieldIndex ["NAME_2", "highway", "type"] roadTypeCandidates
        = some (i, false) ∧
      ["NAME_2", "highway", "type"].getD i "" = "type" ∧
      ∀ j < i, ["NAME_2", "highway", "type"].getD j "" ≠ "type") ∧
    resolveFieldIndex ["osm_id"] roadTypeCandidates = some (0, true) :=
  ⟨(resolveFieldIndex_first_wins ["NAME_2", "highway", "type"]
      roadTypeCandidates).1 [] "type" ["highway", "road_type", "roadtype", "class"]
      (by rfl) (by decide) (by decide),
   (resolveFieldIndex_first_wins ["osm_id"] roadTypeCandidates).2
      (by decide) (by decide)⟩

/-- C8 counterexample: on the scenario store — schema [NAME_2, highway],
records ("CityA","primary"), ("CityA","footway"), ("CityB","primary"),
allowed types ["primary"] — the rendering list has 2 geometries and the
table 2 rows, not 1 and 1 as claimed: the classifier never filters by city,
so the "CityB","primary" pair also survives. -/
theorem classifyScenario_counterexample :
    (extractRoadData c8Store ["primary"]).map
        (fun r => (r.1.length, r.2.rows.length)) = some (2, 2) ∧
    (extractRoadData c8Store ["primary"]).map
        (fun r => (r.1.length, r.2.rows.length)) ≠ some (1, 1) :=
  ⟨by rfl, by decide⟩

/-- C8 amended: on the scenario store the classifier selects 2 records (the
footway record is excluded by the allowed-types filter), the rendering list
has the 2 primary geometries (CityA's and CityB's), and the table has the
2 corresponding rows. -/
theorem classifyScenario_amended :
    extractRoadData c8Store ["primary"] = some
      ([⟨3, [(0, 0), (1, 1)]⟩, ⟨3, [(4, 4), (5, 5)]⟩],
       ⟨["NAME_2", "highway", "start_lat", "start_long", "end_lat", "end_long"],
        [[Value.str "CityA", Value.str "primary", Value.num 0, Value.num 0,
          Value.num 1, Value.num 1],
         [Value.str "CityB", Value.str "primary", Value.num 4, Value.num 4,
          Value.num 5, Value.num 5]]⟩) ∧
    (extractRoadData c8Store ["primary"]).map
        (fun r => (r.1.length, r.2.rows.length)) = some (2, 2) ∧
    Geometry.mk 3 [(2, 2), (3, 3)]
      ∉ [Geometry.mk 3 [(0, 0), (1, 1)], Geometry.mk 3 [(4, 4), (5, 5)]] :=
  ⟨by rfl, by rfl, by decide⟩

theorem not_mem_append_of {α : Type} {a : α} {l r : List α}
    (hl : a ∉ l) (hr : a ∉ r) : a ∉ l ++ r :=
  fun h => (List.mem_append.mp h).elim hl hr

theorem not_mem_cons_of {α : Type} {a b : α} {l : List α}
    (hne : a ≠ b) (hl : a ∉ l) : a ∉ b :: l :=
  fun h => (List.mem_cons.mp h).elim hne hl

theorem splitOnChar_no_sep (c : Char) (l : List Char) (h : c ∉ l) :
    splitOnChar c l = [l] := by
  induction l with
  | nil => rfl
  | cons x xs ih =>
    have hx : ¬(x = c) := fun he => h (he ▸ List.mem_cons_self _ _)
    have ihx := ih fun hm => h (List.mem_cons_of_mem _ hm)
    simp only [splitOnChar, if_neg hx, ihx]

theorem splitOnChar_append_sep (c : Char) (l r : List Char) (h : c ∉ l) :
    splitOnChar c (l ++ c :: r) = l :: splitOnChar c r := by
  induction l with
  | nil => simp [splitOnChar]
  | cons x xs ih =>
    have hx : ¬(x = c) := fun he => h (he ▸ List.mem_cons_self _ _)
    have ihx := ih fun hm => h (List.mem_cons_of_mem _ hm)
    rw [List.cons_append]
    simp only [splitOnChar, if_neg hx, ihx]

theorem splitOnChar_marker (c : Char) (m v r : List Char)
    (hm : c ∉ m) (hv : c ∉ v) :
    splitOnChar c (m ++ (v ++ c :: r)) = (m ++ v) :: splitOnChar c r := by
  rw [← List.append_assoc]
  exact splitOnChar_append_sep c (m ++ v) r (not_mem_append_of hm hv)

theorem parseParam_eq (expected part v : List Char)
    (h : splitOnChar '=' part = [expected, v]) :
    parseParam expected part = some v := by
  unfold parseParam
  rw [h]
  show (if expected = expected then some v else none) = some v
  rw [if_pos rfl]

theorem parseParams4_eq (p1 p2 p3 p4 v1 v2 v3 v4 : List Char)
    (h1 : parseParam "sw_lng".data p1 = some v1)
    (h2 : parseParam "sw_lat".data p2 = some v2)
    (h3 : parseParam "ne_lng".data p3 = some v3)
    (h4 : parseParam "ne_lat".data p4 = some v4) :
    parseParams4 p1 p2 p3 p4 = some (v1, v2, v3, v4) := by
  unfold parseParams4
  rw [h1, h2, h3, h4]

theorem parseQuery4_eq (query p1 p2 p3 p4 : List Char)
    (hs : splitOnChar '&' query = [p1, p2, p3, p4]) :
    parseQuery4 query = parseParams4 p1 p2 p3 p4 := by
  unfold parseQuery4
  rw [hs]

theorem parseVals_eq (v1 v2 v3 v4 : List Char) (a b c d : ℚ)
    (h1 : parseDecimal v1 = some a) (h2 : parseDecimal v2 = some b)
    (h3 : parseDecimal v3 = some c) (h4 : parseDecimal v4 = some d) :
    parseVals (some (v1, v2, v3, v4)) = some (a, b, c, d) := by
  unfold parseVals
  show (match parseDecimal v1, parseDecimal v2,
      parseDecimal v3, parseDecimal v4 with
    | some a, some b, some c, some d => some (a, b, c, d)
    | _, _, _, _ => none) = some (a, b, c, d)
  rw [h1, h2, h3, h4]

/-- C6: `_generate_bbbike_url` is a pure function of the four bbox components
producing the exact URL shape
`http://extract.bbbike.org/?sw_lng={min_x}&sw_lat={min_y}&ne_lng={max_x}&ne_lat={max_y}`
with min mapped to south-west and max to north-east: parsing the four query
parameters back out of the produced URL recovers the original bbox exactly
(for every bbox whose coordinates render without URL delimiters and parse
back, which holds of all decimal coordinates), and the scenario bbox
(72.7, 18.8, 73.0, 19.3) yields exactly the expected query string. -/
theorem generateBBBikeUrl_format_round_trip (bx : Bbox)
    (ha : coordOk bx.1) (hb : coordOk bx.2.1)
    (hc : coordOk bx.2.2.1) (hd : coordOk bx.2.2.2) :
    parseBBikeUrl (generateBBBikeUrl bx) = some bx ∧
    generateBBBikeUrl (mkRat 727 10, mkRat 94 5, 73, mkRat 193 10)
      = "http://extract.bbbike.org/?sw_lng=72.7&sw_lat=18.8&ne_lng=73.0&ne_lat=19.3" := by
  obtain ⟨ha1, ha2, ha3, ha4⟩ := ha
  obtain ⟨hb1, hb2, hb3, hb4⟩ := hb
  obtain ⟨hc1, hc2, hc3, hc4⟩ := hc
  obtain ⟨hd1, hd2, hd3, hd4⟩ := hd
  refine ⟨?_, by decide⟩
  have hurl : urlChars bx = "http://extract.bbbike.org/".data ++ '?' ::
      ("sw_lng=".data ++ (renderCoord bx.1 ++ ('&' :: ("sw_lat=".data ++
        (renderCoord bx.2.1 ++ ('&' :: ("ne_lng=".data ++
        (renderCoord bx.2.2.1 ++ ('&' :: ("ne_lat=".data ++
        renderCoord bx.2.2.2)))))))))) := by
    unfold urlChars
    have e1 : "http://extract.bbbike.org/?sw_lng=".data
        = "http://extract.bbbike.org/".data ++ '?' :: "sw_lng=".data := by
      decide
    have e2 : "&sw_lat=".data = '&' :: "sw_lat=".data := by decide
    have e3 : "&ne_lng=".data = '&' :: "ne_lng=".data := by decide
    have e4 : "&ne_lat=".data = '&' :: "ne_lat=".data := by decide
    rw [e1, e2, e3, e4]
    simp only [List.append_assoc, List.cons_append]
  have hQne : '?' ∉ ("sw_lng=".data ++ (renderCoord bx.1 ++
      ('&' :: ("sw_lat=".data ++ (renderCoord bx.2.1 ++
      ('&' :: ("ne_lng=".data ++ (renderCoord bx.2.2.1 ++
      ('&' :: ("ne_lat=".data ++ renderCoord bx.2.2.2)))))))))) :=
    not_mem_append_of (by decide) (not_mem_append_of ha3
      (not_mem_cons_of (by decide) (not_mem_append_of (by decide)
        (not_mem_append_of hb3 (not_mem_cons_of (by decide)
          (not_mem_append_of (by decide) (not_mem_append_of hc3
            (not_mem_cons_of (by decide)
              (not_mem_append_of (by decide) hd3)))))))))
  have hsplit1 : splitOnChar '?' (generateBBBikeUrl bx).data
      = ["http://extract.bbbike.org/".data,
         "sw_lng=".data ++ (renderCoord bx.1 ++
          ('&' :: ("sw_lat=".data ++ (renderCoord bx.2.1 ++
          ('&' :: ("ne_lng=".data ++ (renderCoord bx.2.2.1 ++
          ('&' :: ("ne_lat=".data ++ renderCoord bx.2.2.2)))))))))] := by
    show splitOnChar '?' (urlChars bx) = _
    rw [hurl, splitOnChar_append_sep '?' _ _ (by decide),
      splitOnChar_no_sep '?' _ hQne]
  have hsplitQ : splitOnChar '&' ("sw_lng=".data ++ (renderCoord bx.1 ++
      ('&' :: ("sw_lat=".data ++ (renderCoord bx.2.1 ++
      ('&' :: ("ne_lng=".data ++ (renderCoord bx.2.2.1 ++
      ('&' :: ("ne_lat=".data ++ renderCoord bx.2.2.2))))))))))
      = ["sw_lng=".data ++ renderCoord bx.1,
         "sw_lat=".data ++ renderCoord bx.2.1,
         "ne_lng=".data ++ renderCoord bx.2.2.1,
         "ne_lat=".data ++ renderCoord bx.2.2.2] := by
    rw [splitOnChar_marker '&' _ _ _ (by decide) ha1,
      splitOnChar_marker '&' _ _ _ (by decide) hb1,
      splitOnChar_marker '&' _ _ _ (by decide) hc1,
      splitOnChar_no_sep '&' _ (not_mem_append_of (by decide) hd1)]
  have hp1 : parseParam "sw_lng".data
      ("sw_lng=".data ++ renderCoord bx.1) = some (renderCoord bx.1) := by
    refine parseParam_eq _ _ _ ?_
    have e : "sw_lng=".data ++ renderCoord bx.1
        = "sw_lng".data ++ '=' :: renderCoord bx.1 := by
      have e0 : "sw_lng=".data = "sw_lng".data ++ ['='] := by decide
      rw [e0, List.append_assoc]
      rfl
    rw [e, splitOnChar_append_sep '=' _ _ (by decide),
      splitOnChar_no_sep '=' _ ha2]
  have hp2 : parseParam "sw_lat".data
      ("sw_lat=".data ++ renderCoord bx.2.1) = some (renderCoord bx.2.1) := by
    refine parseParam_eq _ _ _ ?_
    have e : "sw_lat=".data ++ renderCoord bx.2.1
        = "sw_lat".data ++ '=' :: renderCoord bx.2.1 := by
      have e0 : "sw_lat=".data = "sw_lat".data ++ ['='] := by decide
      rw [e0, List.append_assoc]
      rfl
    rw [e, splitOnChar_append_sep '=' _ _ (by decide),
      splitOnChar_no_sep '=' _ hb2]
  have hp3 : parseParam "ne_lng".data
      ("ne_lng=".data ++ renderCoord bx.2.2.1)
      = some (renderCoord bx.2.2.1) := by
    refine parseParam_eq _ _ _ ?_
    have e : "ne_lng=".data ++ renderCoord bx.2.2.1
        = "ne_lng".data ++ '=' :: renderCoord bx.2.2.1 := by
      have e0 : "ne_lng=".data = "ne_lng".data ++ ['='] := by decide
      rw [e0, List.append_assoc]
      rfl
    rw [e, splitOnChar_append_sep '=' _ _ (by decide),
      splitOnChar_no_sep '=' _ hc2]
  have hp4 : parseParam "ne_lat".data
      ("ne_lat=".data ++ renderCoord bx.2.2.2)
      = some (renderCoord bx.2.2.2) := by
    refine parseParam_eq _ _ _ ?_
    have e : "ne_lat=".data ++ renderCoord bx.2.2.2
        = "ne_lat".data ++ '=' :: renderCoord bx.2.2.2 := by
      have e0 : "ne_lat=".data = "ne_lat".data ++ ['='] := by decide
      rw [e0, List.append_assoc]
      rfl
    rw [e, splitOnChar_append_sep '=' _ _ (by decide),
      splitOnChar_no_sep '=' _ hd2]
  have hq4 : parseQuery4 ("sw_lng=".data ++ (renderCoord bx.1 ++
      ('&' :: ("sw_lat=".data ++ (renderCoord bx.2.1 ++
      ('&' :: ("ne_lng=".data ++ (renderCoord bx.2.2.1 ++
      ('&' :: ("ne_lat=".data ++ renderCoord bx.2.2.2))))))))))
      = some (renderCoord bx.1, renderCoord bx.2.1,
          renderCoord bx.2.2.1, renderCoord bx.2.2.2) := by
    rw [parseQuery4_eq _ _ _ _ _ hsplitQ,
      parseParams4_eq _ _ _ _ _ _ _ _ hp1 hp2 hp3 hp4]
  unfold parseBBikeUrl
  rw [hsplit1]
  show parseVals (parseQuery4 ("sw_lng=".data ++ (renderCoord bx.1 ++
      ('&' :: ("sw_lat=".data ++ (renderCoord bx.2.1 ++
      ('&' :: ("ne_lng=".data ++ (renderCoord bx.2.2.1 ++
      ('&' :: ("ne_lat=".data ++ renderCoord bx.2.2.2))))))))))) = some bx
  rw [hq4]
  exact parseVals_eq _ _ _ _ bx.1 bx.2.1 bx.2.2.1 bx.2.2.2 ha4 hb4 hc4 hd4

/-- Witness for C6: the scenario bbox (72.7, 18.8, 73.0, 19.3) round-trips
through the generated URL. -/
theorem generateBBBikeUrl_format_round_trip_witness :
    parseBBikeUrl (generateBBBikeUrl (mkRat 727 10, mkRat 94 5, 73, mkRat 193 10))
      = some (mkRat 727 10, mkRat 94 5, 73, mkRat 193 10) :=
  (generateBBBikeUrl_format_round_trip (mkRat 727 10, mkRat 94 5, 73, mkRat 193 10)
    (by decide) (by decide) (by decide) (by decide)).1

end GetRoadsCity
